import Mathlib

/-!
Verification development for the volatility_bot repository.

The Python sources (`data_processing.py`, `add_func.py`) are embedded
shallowly: prices, rates and derived statistics are exact rationals (ℚ);
list-valued loops become `List` combinators mirroring the loop bodies;
fallible operations return `Option`.  Calls into external libraries are
modelled as follows:

* `float(s)` / `int(s)` string parsing becomes `parseFloat? : String → Option ℚ`
  and `str_toInt? : String → Option Int`, covering the plain decimal literals
  exchanged with the API (`ValueError` becomes `none`);
* the transcendental functions `math.log`, `math.exp` and `x ** 0.5` of the
  standard library are abstract parameters `lg ex sq : ℚ → ℚ` of the analysis:
  every property proved here holds for all interpretations of them;
* `datetime.fromtimestamp(ms / 1000).strftime("%Y-%m-%d")` is an abstract
  parameter `fmt : Int → String` of the harvester;
* Python `sorted` / `list.sort` (a stable ascending sort) is
  `List.insertionSort`, which is also stable;
* Python string formatting `f"{x:.2f}"` becomes `formatFixed` (round half to
  even, fixed number of decimals), exact on the rationals appearing here.
-/

set_option allowUnsafeReducibility true
attribute [semireducible] Rat.add Rat.sub Rat.mul Rat.div Rat.inv Rat.ofScientific

namespace VolatilityBot

/-- One decimal digit of a numeric string, as `int(c)` would read it. -/
def digitVal (c : Char) : Option Nat :=
  if c.isDigit then some (c.toNat - 48) else none

/-- Value of a digit string; `none` as soon as one character is not a digit.
The empty list yields `some 0`; emptiness is checked by the callers. -/
def digitsVal? (cs : List Char) : Option Nat :=
  cs.foldl (fun acc c => acc.bind (fun n => (digitVal c).map (fun d => n * 10 + d))) (some 0)

/-- Model of Python `float(s)` on the plain decimal literals used by the
exchange payloads: optional sign, then digits with at most one decimal point,
at least one digit overall.  Anything else raises `ValueError`, i.e. `none`. -/
def parseFloat? (s : String) : Option ℚ :=
  let cs := s.toList
  let sgn : ℚ × List Char :=
    match cs with
    | '-' :: rest => (-1, rest)
    | '+' :: rest => (1, rest)
    | _ => (1, cs)
  match (sgn.2.span (fun c => c ≠ '.')) with
  | (ip, []) =>
      if ip.isEmpty then none
      else (digitsVal? ip).map (fun n => sgn.1 * (n : ℚ))
  | (ip, _ :: fp) =>
      if fp.contains '.' then none
      else if ip.isEmpty && fp.isEmpty then none
      else
        match digitsVal? ip, digitsVal? fp with
        | some a, some b => some (sgn.1 * ((a : ℚ) + (b : ℚ) / (10 : ℚ) ^ fp.length))
        | _, _ => none

/-- Model of Python `int(s)` on the millisecond timestamps delivered by the
kline endpoint: optional sign then decimal digits. -/
def str_toInt? (s : String) : Option Int :=
  match s.toList with
  | '-' :: rest => if rest.isEmpty then none else (digitsVal? rest).map (fun n => -(n : Int))
  | '+' :: rest => if rest.isEmpty then none else (digitsVal? rest).map (fun n => (n : Int))
  | cs => if cs.isEmpty then none else (digitsVal? cs).map (fun n => (n : Int))

/-- Round to the nearest integer, ties to even — the rounding used by
Python `format(x, '.2f')`. -/
def roundHalfEven (q : ℚ) : Int :=
  let f := ⌊q⌋
  let r := q - (f : ℚ)
  if r < 1 / 2 then f
  else if 1 / 2 < r then f + 1
  else if f % 2 = 0 then f else f + 1

/-- Fixed-point rendering of a rational with `prec` decimals, as Python
`f"{x:.{prec}f}"` renders the corresponding value. -/
def formatFixed (q : ℚ) (prec : Nat) : String :=
  let scaled := roundHalfEven (q * (10 : ℚ) ^ prec)
  let sign := if scaled < 0 then "-" else ""
  let a := scaled.natAbs
  let ipart := a / 10 ^ prec
  let fpart := a % 10 ^ prec
  let fs := toString fpart
  let pad := String.mk (List.replicate (prec - fs.length) '0')
  if prec = 0 then sign ++ toString ipart
  else sign ++ toString ipart ++ "." ++ pad ++ fs

-- ==========================================
-- add_func.py : the Funding Scanner
-- ==========================================

/-- One record of the `/v5/market/tickers` snapshot, restricted to the two
fields read by `add_func.py`.  A missing `fundingRate` key is modelled by the
empty string, exactly the default of `t.get("fundingRate", "")`. -/
structure FundingQuote where
  symbol : String
  fundingRate : String
deriving DecidableEq

/-- The filtering loop of `get_top_funding_rates`: keep a `(symbol, rate)`
pair for each quote whose funding-rate string is non-empty and parses, with a
strictly negative value; parse failures `continue`. -/
def valid_tickers (tickers : List FundingQuote) : List (String × ℚ) :=
  tickers.filterMap (fun t =>
    if t.fundingRate = "" then none
    else
      match parseFloat? t.fundingRate with
      | none => none
      | some fr => if fr < 0 then some (t.symbol, fr) else none)

/-- Ascending sort by the rate component, `xs.sort(key=lambda x: x[1])`. -/
def sorted_by_rate (l : List (String × ℚ)) : List (String × ℚ) :=
  List.insertionSort (fun a b => a.2 ≤ b.2) l

/-- `valid_tickers[:limit]` after the ascending sort. -/
def top_tickers (tickers : List FundingQuote) (limit : Nat) : List (String × ℚ) :=
  (sorted_by_rate (valid_tickers tickers)).take limit

/-- One rendered line of the top-funding report. -/
def top_line (i : Nat) (p : String × ℚ) : String :=
  toString i ++ ". [" ++ p.1 ++ "](https://www.bybit.com/trade/usdt/" ++ p.1 ++ "): "
    ++ formatFixed (p.2 * 100) 2 ++ "%\n"

/-- The report accumulation loop of `get_top_funding_rates`. -/
def render_top (l : List (String × ℚ)) : String :=
  (l.foldl (fun acc p => (acc.1 ++ top_line acc.2 p, acc.2 + 1))
    ("📉 *Top 10 negative funding*\n\n", 1)).1

/-- `get_top_funding_rates(limit)`, applied to the snapshot the fetch
delivered (`get_funding_data` returns `[]` on any fetch failure, so the empty
list is the "could not fetch" case). -/
def get_top_funding_rates (tickers : List FundingQuote) (limit : Nat) : String :=
  if tickers.isEmpty then "⚠️ Error: Could not fetch funding data."
  else
    let top := top_tickers tickers limit
    if top.isEmpty then "ℹ️ No coins with negative funding rates found."
    else render_top top

/-- The filtering loop of `check_extreme_funding`: keep quotes whose parsed
rate is `≤ threshold`; parse failures `continue`. -/
def extreme_tickers (tickers : List FundingQuote) (threshold : ℚ) : List (String × ℚ) :=
  tickers.filterMap (fun t =>
    if t.fundingRate = "" then none
    else
      match parseFloat? t.fundingRate with
      | none => none
      | some fr => if fr ≤ threshold then some (t.symbol, fr) else none)

/-- One rendered line of the extreme-funding alert. -/
def extreme_line (p : String × ℚ) : String :=
  "[" ++ p.1 ++ "](https://www.bybit.com/trade/usdt/" ++ p.1 ++ "): "
    ++ formatFixed (p.2 * 100) 4 ++ "%\n"

/-- `check_extreme_funding(threshold)` applied to the delivered snapshot:
`none` both on an empty snapshot and when no quote crosses the threshold,
otherwise the full sorted alert text. -/
def check_extreme_funding (tickers : List FundingQuote) (threshold : ℚ) : Option String :=
  if tickers.isEmpty then none
  else
    let ext := extreme_tickers tickers threshold
    if ext.isEmpty then none
    else
      some ((sorted_by_rate ext).foldl (fun acc p => acc ++ extreme_line p)
        "🚨 *EXTREME FUNDING ALERT* 🚨\n\n")

-- ==========================================
-- data_processing.py : the Gatekeeper
-- ==========================================

/-- The fixed category preference order of `validate_ticker`. -/
def search_order : List String := ["linear", "inverse", "spot"]

/-- The category loop of `validate_ticker`.  `inst c` is the full instrument
listing of category `c`, i.e. the concatenation of all pages the pagination
loop walks; a symbol is found in the category exactly when it occurs there. -/
def validate_go (inst : String → List String) (t : String) : List String → Bool × Option String
  | [] => (false, none)
  | c :: rest => if t ∈ inst c then (true, some c) else validate_go inst t rest

/-- `validate_ticker(ticker_symbol)` over an instrument universe `inst`. -/
def validate_ticker (inst : String → List String) (t : String) : Bool × Option String :=
  validate_go inst t search_order

-- ==========================================
-- data_processing.py : the Harvester
-- ==========================================

/-- The per-candle body of the harvester loop: parse the millisecond
timestamp `candle[0]` (`int(candle[0])`), replace it by the formatted date
`fmt ts`, keep every other field as delivered.  A row without a parseable
first field raises, which the enclosing `try` turns into `none`. -/
def clean_candle (fmt : Int → String) (candle : List String) : Option (List String) :=
  match candle with
  | [] => none
  | ts_str :: rest =>
      match str_toInt? ts_str with
      | none => none
      | some ts => some (fmt ts :: rest)

/-- The value `clean_candle` produces when the timestamp parses (and the
row unchanged otherwise); used to state what a successful harvest returns. -/
def clean_val (fmt : Int → String) (candle : List String) : List String :=
  match candle with
  | [] => []
  | ts_str :: rest =>
      match str_toInt? ts_str with
      | none => ts_str :: rest
      | some ts => fmt ts :: rest

/-- The cleaning loop over the reversed rows: append each cleaned candle, or
abort everything as soon as one row raises (the whole loop sits inside the
single `try` of `fetch_market_data`). -/
def clean_all (fmt : Int → String) : List (List String) → Option (List (List String))
  | [] => some []
  | c :: cs =>
      match clean_candle fmt c with
      | none => none
      | some c2 =>
          match clean_all fmt cs with
          | none => none
          | some rest => some (c2 :: rest)

/-- `fetch_market_data` applied to the raw rows the kline endpoint delivered
(newest first).  `fmt` abstracts `datetime.fromtimestamp(ts/1000).strftime("%Y-%m-%d")`.
An empty payload, or any exception while processing a row, yields `none`. -/
def fetch_market_data (fmt : Int → String) (raw_candles : List (List String)) :
    Option (List (List String)) :=
  if raw_candles.isEmpty then none
  else clean_all fmt raw_candles.reverse

-- ==========================================
-- data_processing.py : the Brain
-- ==========================================

/-- One candle as `analyze_market_data` reads it: the date string produced by
the harvester, the four prices already coerced to numbers
(`float(candle[1..4])`), and the volume/turnover fields it never touches. -/
structure Candle where
  date : String
  opn : ℚ
  high : ℚ
  low : ℚ
  close : ℚ
  volume : String
  turnover : String
deriving DecidableEq

/-- The intraday pump accumulation of the grand loop: for every candle with
`curr_open > 0`, the pair `((high - open) / open, date)`. -/
def pump_data (candles : List Candle) : List (ℚ × String) :=
  candles.filterMap (fun c =>
    if 0 < c.opn then some ((c.high - c.opn) / c.opn, c.date) else none)

/-- The intraday dump accumulation: for every candle with `curr_open > 0`,
the pair `((low - open) / open, date)`. -/
def dump_data (candles : List Candle) : List (ℚ × String) :=
  candles.filterMap (fun c =>
    if 0 < c.opn then some ((c.low - c.opn) / c.opn, c.date) else none)

/-- The interday log-return accumulation: for every index `i > 0` with both
closes positive, `log(close / prev_close)`.  `lg` abstracts `math.log`. -/
def log_returns (lg : ℚ → ℚ) (candles : List Candle) : List ℚ :=
  (candles.zip candles.tail).filterMap (fun pc =>
    if 0 < pc.1.close ∧ 0 < pc.2.close then some (lg (pc.2.close / pc.1.close)) else none)

/-- The True Range accumulation: unconditionally for every index `i > 0`,
`max(high - low, |high - prev_close|, |low - prev_close|)`. -/
def tr_list (candles : List Candle) : List ℚ :=
  (candles.zip candles.tail).map (fun pc =>
    max (pc.2.high - pc.2.low) (max |pc.2.high - pc.1.close| |pc.2.low - pc.1.close|))

/-- `statistics.mean`. -/
def mean (xs : List ℚ) : ℚ := xs.sum / (xs.length : ℚ)

/-- The sample variance underlying `statistics.stdev`. -/
def sampleVar (xs : List ℚ) : ℚ :=
  (xs.map (fun x => (x - mean xs) ^ 2)).sum / ((xs.length : ℚ) - 1)

/-- `statistics.stdev`: square root of the sample variance.  `sq` abstracts
the real square root (`x ** 0.5`). -/
def stdev (sq : ℚ → ℚ) (xs : List ℚ) : ℚ := sq (sampleVar xs)

/-- The percentile helper closed over the sorted pump values:
`pv[int(n * percent)] if n > 0 else 0`. -/
def get_p (pv : List ℚ) (percent : ℚ) : ℚ :=
  if 0 < pv.length then pv.getD (⌊(pv.length : ℚ) * percent⌋).toNat 0 else 0

/-- Python `max(l, key=lambda x: x[0])`: the first pair with maximal first
component (`(0, "N/A")` for the guarded empty case). -/
def max_by_val (l : List (ℚ × String)) : ℚ × String :=
  match l with
  | [] => (0, "N/A")
  | x :: xs => xs.foldl (fun a b => if a.1 < b.1 then b else a) x

/-- Python `min(l, key=lambda x: x[0])`: the first pair with minimal first
component. -/
def min_by_val (l : List (ℚ × String)) : ℚ × String :=
  match l with
  | [] => (0, "N/A")
  | x :: xs => xs.foldl (fun a b => if b.1 < a.1 then b else a) x

/-- The stats dictionary of `analyze_market_data` as a structured record. -/
structure Stats where
  vol_day : ℚ
  vol_week : ℚ
  max_daily_surge : ℚ
  max_daily_crash : ℚ
  max_pump_val : ℚ
  max_pump_date : String
  avg_pump : ℚ
  std_pump : ℚ
  max_dump_val : ℚ
  max_dump_date : String
  avg_dump : ℚ
  std_dump : ℚ
  atr_14 : ℚ
  atr_28 : ℚ
  atr_relative : ℚ
  p75_pump : ℚ
  p80_pump : ℚ
  p85_pump : ℚ
  p90_pump : ℚ
  p95_pump : ℚ
  p99_pump : ℚ
deriving DecidableEq

/-- The stats compilation of `analyze_market_data` (sections A–D), executed
once the length guard has passed.  `lg`, `ex`, `sq` abstract `math.log`,
`math.exp` and `** 0.5`; every other operation is exact. -/
def mkStats (lg ex sq : ℚ → ℚ) (candles : List Candle) : Stats :=
  let pump := pump_data candles
  let dump := dump_data candles
  let lr := log_returns lg candles
  let trs := tr_list candles
  let pumpVals := pump.map Prod.fst
  let dumpVals := dump.map Prod.fst
  let maxPumpPair := max_by_val pump
  let minDumpPair := min_by_val dump
  let pv := List.insertionSort (· ≤ ·) pumpVals
  let current_close := (candles.getLast?.map Candle.close).getD 0
  let max_log := match lr with | [] => 0 | x :: xs => xs.foldl max x
  let min_log := match lr with | [] => 0 | x :: xs => xs.foldl min x
  let atr28 := if 28 ≤ trs.length then mean (trs.drop (trs.length - 28)) else 0
  { vol_day := if 1 < lr.length then stdev sq lr else 0
    vol_week := if 1 < lr.length then stdev sq lr * sq 7 else 0
    max_daily_surge := ex max_log - 1
    max_daily_crash := ex min_log - 1
    max_pump_val := maxPumpPair.1
    max_pump_date := maxPumpPair.2
    avg_pump := if pump.isEmpty then 0 else mean pumpVals
    std_pump := if 1 < pumpVals.length then stdev sq pumpVals else 0
    max_dump_val := minDumpPair.1
    max_dump_date := minDumpPair.2
    avg_dump := if dump.isEmpty then 0 else mean dumpVals
    std_dump := if 1 < dumpVals.length then stdev sq dumpVals else 0
    atr_14 := if 14 ≤ trs.length then mean (trs.drop (trs.length - 14)) else 0
    atr_28 := atr28
    atr_relative := if 28 ≤ trs.length then (if 0 < current_close then atr28 / current_close else 0) else 0
    p75_pump := if pump.isEmpty then 0 else get_p pv (3 / 4)
    p80_pump := if pump.isEmpty then 0 else get_p pv (4 / 5)
    p85_pump := if pump.isEmpty then 0 else get_p pv (17 / 20)
    p90_pump := if pump.isEmpty then 0 else get_p pv (9 / 10)
    p95_pump := if pump.isEmpty then 0 else get_p pv (19 / 20)
    p99_pump := if pump.isEmpty then 0 else get_p pv (99 / 100) }

/-- `analyze_market_data(candles)`: the guard
`if not candles or len(candles) < 30: return None` followed by the stats
compilation (an empty list has length `0 < 30`, so the one test covers both
disjuncts). -/
def analyze_market_data (lg ex sq : ℚ → ℚ) (candles : List Candle) : Option Stats :=
  if candles.length < 30 then none
  else some (mkStats lg ex sq candles)

/-- The six percentile ranks queried by section D. -/
def percentile_ranks : List ℚ := [3 / 4, 4 / 5, 17 / 20, 9 / 10, 19 / 20, 99 / 100]

-- ==========================================
-- Theorems
-- ==========================================

/-- C1: `analyze` returns the insufficient-data result `none` exactly for the
candle series of length `< 30` (including the empty series, whose length is
`0`); for every series of length `≥ 30` it proceeds to the full stats
record, for every interpretation of the transcendental helpers. -/
theorem analyze_none_iff_short (lg ex sq : ℚ → ℚ) (cs : List Candle) :
    analyze_market_data lg ex sq cs = none ↔ cs.length < 30 := by
  unfold analyze_market_data
  split <;> simp_all

/-- Concrete instrument universe: the symbol is listed in both the
`linear` and the `spot` category. -/
def linear_and_spot : String → List String :=
  fun c => if c = "linear" then ["BTCUSDT"] else if c = "spot" then ["BTCUSDT"] else []

/-- C6: `validate_ticker` scans `linear`, `inverse`, `spot` in that fixed
order and returns `(true, category)` at the first exact symbol match, so the
reported category is `linear` whenever the symbol is listed there (whatever
the other listings hold), and in general the reported category is the first
of the three that lists the symbol. -/
theorem validate_ticker_first_match (inst : String → List String) (t : String) :
    (t ∈ inst "linear" → validate_ticker inst t = (true, some "linear")) ∧
    (∀ c, validate_ticker inst t = (true, some c) →
      (c = "linear" ∧ t ∈ inst "linear") ∨
      (c = "inverse" ∧ t ∉ inst "linear" ∧ t ∈ inst "inverse") ∨
      (c = "spot" ∧ t ∉ inst "linear" ∧ t ∉ inst "inverse" ∧ t ∈ inst "spot")) := by
  constructor
  · intro h
    simp [validate_ticker, search_order, validate_go, h]
  · intro c hc
    by_cases h1 : t ∈ inst "linear"
    · simp [validate_ticker, search_order, validate_go, h1] at hc
      exact Or.inl ⟨hc.symm, h1⟩
    · by_cases h2 : t ∈ inst "inverse"
      · simp [validate_ticker, search_order, validate_go, h1, h2] at hc
        exact Or.inr (Or.inl ⟨hc.symm, h1, h2⟩)
      · by_cases h3 : t ∈ inst "spot"
        · simp [validate_ticker, search_order, validate_go, h1, h2, h3] at hc
          exact Or.inr (Or.inr ⟨hc.symm, h1, h2, h3⟩)
        · simp [validate_ticker, search_order, validate_go, h1, h2, h3] at hc

/-- Witness for C6: a symbol listed in both `linear` and `spot` resolves to
`linear`. -/
theorem validate_ticker_first_match_witness :
    validate_ticker linear_and_spot "BTCUSDT" = (true, some "linear") :=
  (validate_ticker_first_match linear_and_spot "BTCUSDT").1 (by decide)

/-- If one row of the loop raises, the whole cleaning loop returns `none`. -/
theorem clean_all_eq_none_of_mem {fmt : Int → String} :
    ∀ {l : List (List String)} {c : List String},
      c ∈ l → clean_candle fmt c = none → clean_all fmt l = none := by
  intro l
  induction l with
  | nil => intro c hc; cases hc
  | cons b bs ih =>
      intro c hc hno
      rcases List.mem_cons.mp hc with rfl | hmem
      · simp [clean_all, hno]
      · cases hb : clean_candle fmt b with
        | none => simp [clean_all, hb]
        | some v => simp [clean_all, hb, ih hmem hno]

/-- If every row parses, the cleaning loop returns the mapped list. -/
theorem clean_all_eq_map_of_forall {fmt : Int → String} :
    ∀ {l : List (List String)},
      (∀ c ∈ l, clean_candle fmt c = some (clean_val fmt c)) →
      clean_all fmt l = some (l.map (clean_val fmt)) := by
  intro l
  induction l with
  | nil => intro _; simp [clean_all]
  | cons b bs ih =>
      intro h
      have hb := h b (List.mem_cons_self b bs)
      have hrest := ih (fun c hc => h c (List.mem_cons_of_mem b hc))
      simp [clean_all, hb, hrest]

/-- C5 counterexample: in the candle harvester a single record whose
timestamp field fails to parse makes the whole operation return the
unavailable sentinel `none` — the remaining (fully parseable) record is not
kept, although on its own it would be processed. -/
theorem harvester_record_abort_counterexample :
    fetch_market_data (fun _ => "1970-01-02")
        [["86400000", "1", "2", "3", "4", "5", "6"], ["x", "1", "2", "3", "4", "5", "6"]] = none ∧
    fetch_market_data (fun _ => "1970-01-02")
        [["86400000", "1", "2", "3", "4", "5", "6"]] =
      some [["1970-01-02", "1", "2", "3", "4", "5", "6"]] ∧
    str_toInt? "x" = none ∧
    fetch_market_data (fun _ => "1970-01-02")
        [["86400000", "1", "2", "3", "4", "5", "6"], ["x", "1", "2", "3", "4", "5", "6"]] ≠
      some [["1970-01-02", "1", "2", "3", "4", "5", "6"]] := by
  refine ⟨by decide, by decide, by decide, ?_⟩
  decide

/-- C5 as amended: both funding-scanner operations drop a record whose
funding-rate field is missing or unparseable on its own and complete over the
remaining records, but the candle harvester aborts the whole fetch (returns
`none`, no partial series) when any record's timestamp fails to parse. -/
theorem per_record_parse_failure_semantics :
    (∀ (pre post : List FundingQuote) (q : FundingQuote) (th : ℚ),
      parseFloat? q.fundingRate = none →
        valid_tickers (pre ++ q :: post) = valid_tickers (pre ++ post) ∧
        extreme_tickers (pre ++ q :: post) th = extreme_tickers (pre ++ post) th) ∧
    (∀ (fmt : Int → String) (raw : List (List String)) (c : List String),
      c ∈ raw → clean_candle fmt c = none → fetch_market_data fmt raw = none) := by
  constructor
  · intro pre post q th hq
    constructor
    · by_cases h : q.fundingRate = "" <;>
        simp [valid_tickers, List.filterMap_append, h, hq]
    · by_cases h : q.fundingRate = "" <;>
        simp [extreme_tickers, List.filterMap_append, h, hq]
  · intro fmt raw c hc hno
    unfold fetch_market_data
    by_cases he : raw.isEmpty
    · simp [he]
    · simp only [he, if_false, Bool.false_eq_true]
      exact clean_all_eq_none_of_mem (List.mem_reverse.mpr hc) hno

/-- Witness for C5 (amended): a quote with unparseable rate is skipped while
the rest of the scan completes; a candle with unparseable timestamp aborts the
harvest. -/
theorem per_record_parse_failure_semantics_witness :
    valid_tickers [⟨"AAAUSDT", "abc"⟩, ⟨"BTCUSDT", "-0.02"⟩] =
      valid_tickers [⟨"BTCUSDT", "-0.02"⟩] ∧
    fetch_market_data (fun _ => "d") [["x", "1"]] = none :=
  ⟨(per_record_parse_failure_semantics.1 [] [⟨"BTCUSDT", "-0.02"⟩] ⟨"AAAUSDT", "abc"⟩ 0
      (by decide)).1,
    per_record_parse_failure_semantics.2 (fun _ => "d") [["x", "1"]] ["x", "1"]
      (by decide) (by decide)⟩

/-- C2: on a non-empty delivery whose rows all carry a parseable timestamp,
the harvest succeeds and returns the reverse of the delivered order
(chronological ascending), one output row per input row, where each row has
only its first field replaced by the formatted date and every other field
passed through unmodified. -/
theorem fetch_market_data_chronological (fmt : Int → String) (raw : List (List String))
    (hne : raw ≠ [])
    (hok : ∀ c ∈ raw, ∃ s ts rest, c = s :: rest ∧ str_toInt? s = some ts) :
    fetch_market_data fmt raw = some (raw.reverse.map (clean_val fmt)) ∧
    (raw.reverse.map (clean_val fmt)).length = raw.length ∧
    ∀ c ∈ raw, ∃ s ts rest, c = s :: rest ∧ str_toInt? s = some ts ∧
      clean_val fmt c = fmt ts :: rest := by
  have hclean : ∀ c ∈ raw, clean_candle fmt c = some (clean_val fmt c) := by
    intro c hc
    obtain ⟨s, ts, rest, rfl, hts⟩ := hok c hc
    simp [clean_candle, clean_val, hts]
  refine ⟨?_, by simp, ?_⟩
  · unfold fetch_market_data
    have hne' : raw.isEmpty = false := by
      cases raw with
      | nil => exact absurd rfl hne
      | cons a l => rfl
    simp only [hne', Bool.false_eq_true, if_false]
    exact clean_all_eq_map_of_forall (fun c hc => hclean c (List.mem_reverse.mp hc))
  · intro c hc
    obtain ⟨s, ts, rest, rfl, hts⟩ := hok c hc
    exact ⟨s, ts, rest, rfl, hts, by simp [clean_val, hts]⟩

/-- A concrete two-row delivery, newest first, both timestamps parseable. -/
def sample_raw : List (List String) :=
  [["86400000", "1", "2", "3", "4", "5", "6"], ["0", "7", "8", "9", "10", "11", "12"]]

/-- Witness for C2: the concrete two-row delivery is reversed, stamped and
passed through. -/
theorem fetch_market_data_chronological_witness :
    fetch_market_data (fun _ => "1970-01-01") sample_raw =
      some (sample_raw.reverse.map (clean_val (fun _ => "1970-01-01"))) ∧
    (sample_raw.reverse.map (clean_val (fun _ => "1970-01-01"))).length = sample_raw.length ∧
    ∀ c ∈ sample_raw, ∃ s ts rest, c = s :: rest ∧ str_toInt? s = some ts ∧
      clean_val (fun _ => "1970-01-01") c = (fun _ => "1970-01-01" : Int → String) ts :: rest :=
  fetch_market_data_chronological (fun _ => "1970-01-01") sample_raw (by decide)
    (by
      intro c hc
      simp [sample_raw] at hc
      rcases hc with rfl | rfl
      · exact ⟨"86400000", 86400000, ["1", "2", "3", "4", "5", "6"], rfl, by decide⟩
      · exact ⟨"0", 0, ["7", "8", "9", "10", "11", "12"], rfl, by decide⟩)

instance : IsTotal (String × ℚ) (fun a b => a.2 ≤ b.2) := ⟨fun a b => le_total a.2 b.2⟩

instance : IsTrans (String × ℚ) (fun a b => a.2 ≤ b.2) := ⟨fun _ _ _ hab hbc => le_trans hab hbc⟩

/-- The per-quote filter of `get_top_funding_rates` produces `(s, r)` exactly
for a present, parseable, strictly negative funding-rate field. -/
theorem valid_filter_eq_some (t : FundingQuote) (s : String) (r : ℚ) :
    (if t.fundingRate = "" then none
     else
       match parseFloat? t.fundingRate with
       | none => none
       | some fr => if fr < 0 then some (t.symbol, fr) else none) = some (s, r) ↔
      t.symbol = s ∧ t.fundingRate ≠ "" ∧ parseFloat? t.fundingRate = some r ∧ r < 0 := by
  by_cases h : t.fundingRate = ""
  · simp [h]
  · cases hp : parseFloat? t.fundingRate with
    | none => simp [h, hp]
    | some fr =>
        by_cases hneg : fr < 0
        · simp only [h, if_false, hp, hneg, if_true, Option.some.injEq, Prod.mk.injEq, ne_eq,
            not_false_eq_true, true_and]
          constructor
          · rintro ⟨rfl, rfl⟩; exact ⟨rfl, rfl, hneg⟩
          · rintro ⟨rfl, rfl, -⟩; exact ⟨rfl, rfl⟩
        · simp only [h, if_false, hp, hneg, ne_eq, not_false_eq_true, true_and,
            Option.some.injEq]
          constructor
          · rintro ⟨⟩
          · rintro ⟨-, rfl, hrneg⟩; exact absurd hrneg hneg

/-- The example snapshot of the spec scenarios. -/
def example_snapshot : List FundingQuote :=
  [⟨"BTCUSDT", "-0.02"⟩, ⟨"ETHUSDT", "0.01"⟩, ⟨"XXXUSDT", "-0.05"⟩]

/-- C7: `get_top_funding_rates` keeps exactly the present, parseable,
strictly negative rates; the rendered list is the ascending sort truncated to
`limit`; a non-empty snapshot with an empty filtered set yields the explicit
no-negative-funding message; on the spec snapshot the report ranks XXXUSDT
before BTCUSDT and excludes ETHUSDT. -/
theorem get_top_funding_rates_spec :
    (∀ (tickers : List FundingQuote) (s : String) (r : ℚ),
      (s, r) ∈ valid_tickers tickers ↔
        ∃ q ∈ tickers, q.symbol = s ∧ q.fundingRate ≠ "" ∧
          parseFloat? q.fundingRate = some r ∧ r < 0) ∧
    (∀ (tickers : List FundingQuote) (limit : Nat),
      (top_tickers tickers limit).Sorted (fun a b => a.2 ≤ b.2) ∧
      (top_tickers tickers limit).length ≤ limit) ∧
    (∀ (tickers : List FundingQuote) (limit : Nat), tickers ≠ [] →
      valid_tickers tickers = [] →
      get_top_funding_rates tickers limit = "ℹ️ No coins with negative funding rates found.") ∧
    get_top_funding_rates example_snapshot 10 =
      "📉 *Top 10 negative funding*\n\n1. [XXXUSDT](https://www.bybit.com/trade/usdt/XXXUSDT): -5.00%\n2. [BTCUSDT](https://www.bybit.com/trade/usdt/BTCUSDT): -2.00%\n" := by
  refine ⟨?_, ?_, ?_, by decide⟩
  · intro tickers s r
    simp only [valid_tickers, List.mem_filterMap]
    constructor
    · rintro ⟨q, hq, hsome⟩
      exact ⟨q, hq, (valid_filter_eq_some q s r).mp hsome⟩
    · rintro ⟨q, hq, hprops⟩
      exact ⟨q, hq, (valid_filter_eq_some q s r).mpr hprops⟩
  · intro tickers limit
    constructor
    · exact List.Pairwise.sublist (List.take_sublist _ _)
        (List.sorted_insertionSort _ (valid_tickers tickers))
    · simp [top_tickers, Nat.min_le_left]
  · intro tickers limit hne hval
    have he : tickers.isEmpty = false := by
      cases tickers with
      | nil => exact absurd rfl hne
      | cons a l => rfl
    simp [get_top_funding_rates, he, top_tickers, hval, sorted_by_rate]

/-- Witness for C7: on a snapshot holding only a positive rate the filtered
set is empty and the explicit message is returned. -/
theorem get_top_funding_rates_spec_witness :
    get_top_funding_rates [⟨"ETHUSDT", "0.01"⟩] 10 =
      "ℹ️ No coins with negative funding rates found." :=
  get_top_funding_rates_spec.2.2.1 [⟨"ETHUSDT", "0.01"⟩] 10 (by decide) (by decide)

/-- The per-quote filter of `check_extreme_funding` produces `(s, r)` exactly
for a present, parseable funding rate at or below the threshold. -/
theorem extreme_filter_eq_some (t : FundingQuote) (th : ℚ) (s : String) (r : ℚ) :
    (if t.fundingRate = "" then none
     else
       match parseFloat? t.fundingRate with
       | none => none
       | some fr => if fr ≤ th then some (t.symbol, fr) else none) = some (s, r) ↔
      t.symbol = s ∧ t.fundingRate ≠ "" ∧ parseFloat? t.fundingRate = some r ∧ r ≤ th := by
  by_cases h : t.fundingRate = ""
  · simp [h]
  · cases hp : parseFloat? t.fundingRate with
    | none => simp [h, hp]
    | some fr =>
        by_cases hle : fr ≤ th
        · simp only [h, if_false, hp, hle, if_true, Option.some.injEq, Prod.mk.injEq, ne_eq,
            not_false_eq_true, true_and]
          constructor
          · rintro ⟨rfl, rfl⟩; exact ⟨rfl, rfl, hle⟩
          · rintro ⟨rfl, rfl, -⟩; exact ⟨rfl, rfl⟩
        · simp only [h, if_false, hp, hle, ne_eq, not_false_eq_true, true_and,
            Option.some.injEq]
          constructor
          · rintro ⟨⟩
          · rintro ⟨-, rfl, hr⟩; exact absurd hr hle

/-- C8: `scanExtreme` keeps exactly the present, parseable rates at or below
the threshold, renders all of them ascending (the rendered list is a
permutation of the whole filtered set, not a truncation), returns `none`
exactly when the filtered set is empty, and on the spec snapshot at
`-0.015` lists XXXUSDT then BTCUSDT with ETHUSDT absent. -/
theorem check_extreme_funding_spec :
    (∀ (tickers : List FundingQuote) (th : ℚ),
      check_extreme_funding tickers th = none ↔ extreme_tickers tickers th = []) ∧
    (∀ (tickers : List FundingQuote) (th : ℚ) (s : String) (r : ℚ),
      (s, r) ∈ extreme_tickers tickers th ↔
        ∃ q ∈ tickers, q.symbol = s ∧ q.fundingRate ≠ "" ∧
          parseFloat? q.fundingRate = some r ∧ r ≤ th) ∧
    (∀ (tickers : List FundingQuote) (th : ℚ),
      (sorted_by_rate (extreme_tickers tickers th)).Sorted (fun a b => a.2 ≤ b.2) ∧
      (sorted_by_rate (extreme_tickers tickers th)).length =
        (extreme_tickers tickers th).length) ∧
    check_extreme_funding example_snapshot (-3 / 200) =
      some "🚨 *EXTREME FUNDING ALERT* 🚨\n\n[XXXUSDT](https://www.bybit.com/trade/usdt/XXXUSDT): -5.0000%\n[BTCUSDT](https://www.bybit.com/trade/usdt/BTCUSDT): -2.0000%\n" := by
  refine ⟨?_, ?_, ?_, by decide⟩
  · intro tickers th
    by_cases he : tickers.isEmpty
    · have : tickers = [] := List.isEmpty_iff.mp he
      subst this
      simp [check_extreme_funding, extreme_tickers]
    · by_cases hx : (extreme_tickers tickers th).isEmpty
      · simp [check_extreme_funding, he, hx, List.isEmpty_iff.mp hx]
      · have : ¬ extreme_tickers tickers th = [] := fun hh => hx (by simp [hh])
        simp [check_extreme_funding, he, hx, this]
  · intro tickers th s r
    simp only [extreme_tickers, List.mem_filterMap]
    constructor
    · rintro ⟨q, hq, hsome⟩
      exact ⟨q, hq, (extreme_filter_eq_some q th s r).mp hsome⟩
    · rintro ⟨q, hq, hprops⟩
      exact ⟨q, hq, (extreme_filter_eq_some q th s r).mpr hprops⟩
  · intro tickers th
    exact ⟨List.sorted_insertionSort _ _,
      (List.perm_insertionSort _ _).length_eq⟩

/-- C10: `check_extreme_funding` collapses the failed/empty fetch and the
no-match outcome into the same `none`, so the caller cannot tell "data
unavailable" from "no extreme funding", whereas `get_top_funding_rates`
returns distinct messages for those two situations. -/
theorem check_extreme_funding_none_overload :
    (∀ th : ℚ, check_extreme_funding [] th = none) ∧
    (∀ (tickers : List FundingQuote) (th : ℚ), extreme_tickers tickers th = [] →
      check_extreme_funding tickers th = none) ∧
    check_extreme_funding [⟨"ETHUSDT", "0.01"⟩] (-3 / 200) = none ∧
    get_top_funding_rates [] 10 = "⚠️ Error: Could not fetch funding data." ∧
    get_top_funding_rates [⟨"ETHUSDT", "0.01"⟩] 10 =
      "ℹ️ No coins with negative funding rates found." ∧
    get_top_funding_rates [] 10 ≠ get_top_funding_rates [⟨"ETHUSDT", "0.01"⟩] 10 := by
  refine ⟨fun th => by simp [check_extreme_funding], ?_, by decide, by decide, by decide, by decide⟩
  intro tickers th hx
  by_cases he : tickers.isEmpty
  · simp [check_extreme_funding, he]
  · simp [check_extreme_funding, he, hx]

/-- Witness for C10: a concrete snapshot with no quote at or below the
threshold yields `none`, the same value as the empty snapshot. -/
theorem check_extreme_funding_none_overload_witness :
    check_extreme_funding [⟨"ABCUSDT", "0.03"⟩] (-1) = none :=
  check_extreme_funding_none_overload.2.1 [⟨"ABCUSDT", "0.03"⟩] (-1) (by decide)

/-- C3: for every non-empty pump-value distribution and ranks `p1 < p2` among
the six queried percentiles, the index `floor(n * p)` into the
ascending-sorted values is in bounds for both ranks, and the percentile value
returned for `p1` is at most the one returned for `p2`. -/
theorem get_p_monotone (values : List ℚ) (hne : values ≠ []) (p1 p2 : ℚ)
    (h1 : p1 ∈ percentile_ranks) (h2 : p2 ∈ percentile_ranks) (h12 : p1 < p2) :
    (⌊((List.insertionSort (· ≤ ·) values).length : ℚ) * p1⌋).toNat <
      (List.insertionSort (· ≤ ·) values).length ∧
    (⌊((List.insertionSort (· ≤ ·) values).length : ℚ) * p2⌋).toNat <
      (List.insertionSort (· ≤ ·) values).length ∧
    get_p (List.insertionSort (· ≤ ·) values) p1 ≤
      get_p (List.insertionSort (· ≤ ·) values) p2 := by
  set pv := List.insertionSort (· ≤ ·) values with hpv
  have hsorted : pv.Sorted (· ≤ ·) := List.sorted_insertionSort _ values
  have hlen : pv.length = values.length := (List.perm_insertionSort _ values).length_eq
  have hpos : 0 < pv.length := by
    rw [hlen]
    exact List.length_pos.mpr hne
  have hranks : ∀ p ∈ percentile_ranks, 0 ≤ p ∧ p ≤ 99 / 100 := by decide
  obtain ⟨h1a, h1b⟩ := hranks p1 h1
  obtain ⟨h2a, h2b⟩ := hranks p2 h2
  have hn0 : (0 : ℚ) ≤ (pv.length : ℚ) := by positivity
  have hbound : ∀ p : ℚ, 0 ≤ p → p ≤ 99 / 100 →
      (⌊(pv.length : ℚ) * p⌋).toNat < pv.length := by
    intro p hp0 hp1
    have hlt : (pv.length : ℚ) * p < (pv.length : ℚ) := by
      calc (pv.length : ℚ) * p ≤ (pv.length : ℚ) * (99 / 100) :=
            mul_le_mul_of_nonneg_left hp1 hn0
        _ < (pv.length : ℚ) * 1 := by
            apply mul_lt_mul_of_pos_left (by norm_num)
            exact_mod_cast hpos
        _ = (pv.length : ℚ) := mul_one _
    have hfl : ⌊(pv.length : ℚ) * p⌋ < (pv.length : Int) := Int.floor_lt.mpr (by exact_mod_cast hlt)
    have hfl0 : 0 ≤ ⌊(pv.length : ℚ) * p⌋ := Int.floor_nonneg.mpr (mul_nonneg hn0 hp0)
    omega
  have hb1 := hbound p1 h1a h1b
  have hb2 := hbound p2 h2a h2b
  refine ⟨hb1, hb2, ?_⟩
  have hidx : (⌊(pv.length : ℚ) * p1⌋).toNat ≤ (⌊(pv.length : ℚ) * p2⌋).toNat :=
    Int.toNat_le_toNat (Int.floor_mono (mul_le_mul_of_nonneg_left h12.le hn0))
  unfold get_p
  rw [if_pos hpos, if_pos hpos,
    List.getD_eq_getElem _ _ hb1, List.getD_eq_getElem _ _ hb2]
  exact hsorted.rel_get_of_le (a := ⟨_, hb1⟩) (b := ⟨_, hb2⟩) hidx

/-- Witness for C3: three pump values, ranks `3/4 < 99/100`: both indices in
bounds and the percentile values ordered. -/
theorem get_p_monotone_witness :
    (⌊((List.insertionSort (· ≤ ·) [(1 : ℚ), 0, 2]).length : ℚ) * (3 / 4)⌋).toNat <
      (List.insertionSort (· ≤ ·) [(1 : ℚ), 0, 2]).length ∧
    (⌊((List.insertionSort (· ≤ ·) [(1 : ℚ), 0, 2]).length : ℚ) * (99 / 100)⌋).toNat <
      (List.insertionSort (· ≤ ·) [(1 : ℚ), 0, 2]).length ∧
    get_p (List.insertionSort (· ≤ ·) [(1 : ℚ), 0, 2]) (3 / 4) ≤
      get_p (List.insertionSort (· ≤ ·) [(1 : ℚ), 0, 2]) (99 / 100) :=
  get_p_monotone [1, 0, 2] (by decide) (3 / 4) (99 / 100) (by decide) (by decide) (by decide)

/-- C4: on a structurally valid series of length `≥ 30` whose opens are all
`≤ 0`, the pump and dump lists are empty and `analyze` totalizes every
dependent metric — max pump/dump value, averages, standard deviations and all
six percentile levels — to exactly `0`, with the sentinel date `"N/A"` for
both extreme dates, for every interpretation of the transcendental helpers. -/
theorem analyze_degenerate_opens (lg ex sq : ℚ → ℚ) (cs : List Candle)
    (hlen : 30 ≤ cs.length) (hop : ∀ c ∈ cs, c.opn ≤ 0) :
    pump_data cs = [] ∧ dump_data cs = [] ∧
    ∃ s, analyze_market_data lg ex sq cs = some s ∧
      s.max_pump_val = 0 ∧ s.max_pump_date = "N/A" ∧ s.avg_pump = 0 ∧ s.std_pump = 0 ∧
      s.max_dump_val = 0 ∧ s.max_dump_date = "N/A" ∧ s.avg_dump = 0 ∧ s.std_dump = 0 ∧
      s.p75_pump = 0 ∧ s.p80_pump = 0 ∧ s.p85_pump = 0 ∧ s.p90_pump = 0 ∧
      s.p95_pump = 0 ∧ s.p99_pump = 0 := by
  have hp : pump_data cs = [] := by
    refine List.filterMap_eq_nil_iff.mpr (fun c hc => ?_)
    rw [if_neg (not_lt.mpr (hop c hc))]
  have hd : dump_data cs = [] := by
    refine List.filterMap_eq_nil_iff.mpr (fun c hc => ?_)
    rw [if_neg (not_lt.mpr (hop c hc))]
  refine ⟨hp, hd, mkStats lg ex sq cs,
    by simp [analyze_market_data, Nat.not_lt.mpr hlen], ?_, ?_, ?_, ?_, ?_, ?_, ?_, ?_,
    ?_, ?_, ?_, ?_, ?_, ?_⟩ <;>
    simp [mkStats, hp, hd, max_by_val, min_by_val]

/-- A structurally valid 30-candle series whose opens are all `0`. -/
def degenerate_series : List Candle :=
  List.replicate 30
    { date := "2024-01-01", opn := 0, high := 1, low := 0, close := 1,
      volume := "0", turnover := "0" }

/-- Witness for C4: the all-zero-open 30-candle series yields empty pump and
dump lists and zeroed dependent metrics with the `"N/A"` dates. -/
theorem analyze_degenerate_opens_witness :
    pump_data degenerate_series = [] ∧ dump_data degenerate_series = [] ∧
    ∃ s, analyze_market_data id id id degenerate_series = some s ∧
      s.max_pump_val = 0 ∧ s.max_pump_date = "N/A" ∧ s.avg_pump = 0 ∧ s.std_pump = 0 ∧
      s.max_dump_val = 0 ∧ s.max_dump_date = "N/A" ∧ s.avg_dump = 0 ∧ s.std_dump = 0 ∧
      s.p75_pump = 0 ∧ s.p80_pump = 0 ∧ s.p85_pump = 0 ∧ s.p90_pump = 0 ∧
      s.p95_pump = 0 ∧ s.p99_pump = 0 :=
  analyze_degenerate_opens id id id degenerate_series (by decide) (by decide)

/-- C9: the True Range is accumulated unconditionally for every index
`i > 0`, so a series of length `n ≥ 30` yields exactly `n - 1 ≥ 29` True
Range values; both ATR fallbacks are therefore unreachable and `atr_14` /
`atr_28` equal the arithmetic means of the last 14 resp. 28 True Range
values (windows of exactly those lengths). -/
theorem tr_list_full_support (lg ex sq : ℚ → ℚ) (cs : List Candle)
    (hlen : 30 ≤ cs.length) :
    (tr_list cs).length = cs.length - 1 ∧ 29 ≤ (tr_list cs).length ∧
    ∃ s, analyze_market_data lg ex sq cs = some s ∧
      s.atr_14 = mean ((tr_list cs).drop ((tr_list cs).length - 14)) ∧
      s.atr_28 = mean ((tr_list cs).drop ((tr_list cs).length - 28)) ∧
      ((tr_list cs).drop ((tr_list cs).length - 14)).length = 14 ∧
      ((tr_list cs).drop ((tr_list cs).length - 28)).length = 28 := by
  have hlen' : (tr_list cs).length = cs.length - 1 := by
    simp [tr_list, List.length_zip, List.length_tail]
  have h29 : 29 ≤ (tr_list cs).length := by omega
  have h14 : 14 ≤ (tr_list cs).length := by omega
  have h28 : 28 ≤ (tr_list cs).length := by omega
  refine ⟨hlen', h29, mkStats lg ex sq cs,
    by simp [analyze_market_data, Nat.not_lt.mpr hlen], ?_, ?_, ?_, ?_⟩
  · simp [mkStats, h14]
  · simp [mkStats, h28]
  · simp [List.length_drop]; omega
  · simp [List.length_drop]; omega

/-- Witness for C9: on the concrete 30-candle series the True Range list has
29 entries and the ATRs are the means of its last 14 and 28 entries. -/
theorem tr_list_full_support_witness :
    (tr_list degenerate_series).length = degenerate_series.length - 1 ∧
    29 ≤ (tr_list degenerate_series).length ∧
    ∃ s, analyze_market_data id id id degenerate_series = some s ∧
      s.atr_14 = mean ((tr_list degenerate_series).drop ((tr_list degenerate_series).length - 14)) ∧
      s.atr_28 = mean ((tr_list degenerate_series).drop ((tr_list degenerate_series).length - 28)) ∧
      ((tr_list degenerate_series).drop ((tr_list degenerate_series).length - 14)).length = 14 ∧
      ((tr_list degenerate_series).drop ((tr_list degenerate_series).length - 28)).length = 28 :=
  tr_list_full_support id id id degenerate_series (by decide)

end VolatilityBot
